import Mathlib

/-!
Verification of the SUPEN pension-returns pipeline (src/supen_analysis.py).

The development shallowly embeds the JSON-processing core of the script:
the per-horizon fetch normalisation (fetch_returns_for_horizon, lines
179-207 of the source), the aggregation loop (collect_returns, lines
225-234), the ranking (create_ranking, lines 251-253) and the
orchestration/failure policy (collect_returns and main).

Conventions of the embedding:
* JSON values are an inductive type; a parsed Python dict is a list of
  key/value pairs with distinct keys (json.loads collapses duplicates).
* Python float values are modelled as rationals; only ordering and
  equality of return values matter to the claims, never rounding.
* Python exceptions are modelled with Option/Except: a caught exception
  inside the per-record try block corresponds to a skipped record, an
  uncaught one (AttributeError on a non-dict record) to an error result
  of the whole fetch.
-/

/-- JSON values as produced by response.json().  An object is the parsed
Python dict: a list of key/value pairs, later duplicate keys already
collapsed by the JSON parser, so lookup takes the first match. -/
inductive JSON : Type where
  | null : JSON
  | bool : Bool → JSON
  | num : ℚ → JSON
  | str : String → JSON
  | arr : List JSON → JSON
  | obj : List (String × JSON) → JSON

/-- Key lookup in a parsed dict: some value when the key is present
(the value itself may be JSON.null), none when the key is absent.
This distinction is exactly the one Python's dict.get default makes. -/
def lookupField (fields : List (String × JSON)) (k : String) : Option JSON :=
  (fields.find? (fun p => p.1 = k)).map (fun p => p.2)

/-- Python truthiness of a JSON-decoded value: None, False, 0, empty
string, empty list and empty dict are falsy, everything else truthy.
This is the test performed by the source line 203, if operator_code. -/
def pyTruthy : JSON → Bool
  | JSON.null => false
  | JSON.bool b => b
  | JSON.num q => decide (q ≠ 0)
  | JSON.str s => !s.isEmpty
  | JSON.arr xs => !xs.isEmpty
  | JSON.obj fs => !fs.isEmpty

/-- Numeric value of a decimal digit character. -/
def digitVal (c : Char) : ℕ := c.toNat - 48

/-- Natural number denoted by a digit string. -/
def digitsToNat (cs : List Char) : ℕ :=
  cs.foldl (fun n c => 10 * n + digitVal c) 0

/-- Characters of a string with surrounding whitespace removed, the
semantics of Python str.strip() with no argument (and of the whitespace
stripping float() performs): drop whitespace from both ends. -/
def stripChars (cs : List Char) : List Char :=
  ((cs.dropWhile Char.isWhitespace).reverse.dropWhile Char.isWhitespace).reverse

/-- Python str.strip() on a string. -/
def pyStrip (s : String) : String := String.mk (stripChars s.toList)

/-- Decimal string accepted by Python's float(): surrounding whitespace,
an optional sign, then digits with an optional fractional part.  The
embedding covers plain decimal literals; Python additionally accepts
exponents and the inf/nan spellings, which no claim exercises. -/
def parseDecimalString (s : String) : Option ℚ :=
  let cs := stripChars s.toList
  let signAndRest : ℚ × List Char :=
    match cs with
    | '-' :: rest => (-1, rest)
    | '+' :: rest => (1, rest)
    | rest => (1, rest)
  let sign := signAndRest.1
  let body := signAndRest.2
  let intPart := body.takeWhile Char.isDigit
  let afterInt := body.dropWhile Char.isDigit
  match afterInt with
  | [] =>
      if intPart.isEmpty then none
      else some (sign * (digitsToNat intPart : ℚ))
  | '.' :: afterDot =>
      let fracPart := afterDot.takeWhile Char.isDigit
      let afterFrac := afterDot.dropWhile Char.isDigit
      if afterFrac.isEmpty && !(intPart.isEmpty && fracPart.isEmpty) then
        some (sign * ((digitsToNat intPart : ℚ) +
          (digitsToNat fracPart : ℚ) / (10 : ℚ) ^ fracPart.length))
      else none
  | _ => none

/-- Python float(value) on a JSON-decoded value, none when the call
raises ValueError or TypeError (source line 204, the coercion caught by
the except clause on lines 205-206): numbers pass through, booleans map
to 0 and 1, strings are parsed as decimals, None/list/dict raise. -/
def pyFloat : JSON → Option ℚ
  | JSON.num q => some q
  | JSON.bool b => some (if b then 1 else 0)
  | JSON.str s => parseDecimalString s
  | _ => none

/-- Python str(value) for a JSON-decoded value.  Codes in practice are
strings, which map to themselves; the remaining cases follow Python for
None, booleans and integers.  For a non-integral number Python prints a
float literal while this prints a fraction; no claim depends on that
case and nothing downstream inspects the rendered text. -/
def pyStr : JSON → String
  | JSON.str s => s
  | JSON.null => "None"
  | JSON.bool b => if b then "True" else "False"
  | JSON.num q => if q.den = 1 then toString q.num else toString q
  | JSON.arr _ => "[...]"
  | JSON.obj _ => "{...}"

/-- Python dict assignment d[k] = v: overwrite in place when the key is
already present, append otherwise. -/
def dictSet (d : List (String × ℚ)) (k : String) (v : ℚ) : List (String × ℚ) :=
  if d.any (fun p => p.1 = k) then
    d.map (fun p => if p.1 = k then (k, v) else p)
  else
    d ++ [(k, v)]

/-- Python dict lookup d.get(k): the stored value, or none. -/
def dictGet (d : List (String × ℚ)) (k : String) : Option ℚ :=
  (d.find? (fun p => p.1 = k)).map (fun p => p.2)

/-- Errors a fetch can surface once the JSON body is in hand.  transport
stands for requests.HTTPError raised before any JSON processing; shape
for the two KeyError raises of the envelope detection (lines 188-196);
attr for the uncaught AttributeError that a non-dict element of the
record list triggers at rec.get (line 201), since the except clause on
line 205 catches only KeyError, ValueError and TypeError. -/
inductive FetchErr : Type where
  | transport : FetchErr
  | shape : FetchErr
  | attr : FetchErr
deriving DecidableEq, Repr

/-- Envelope keys probed on line 183, in source order. -/
def envelopeKeys : List String := ["datos", "data", "records", "result"]

/-- Value of the first key of the given priority list that is present
with a list value, mirroring the loop with break on lines 183-186:
a key that is absent, or present with a non-list value, is passed over. -/
def firstListValue (fields : List (String × JSON)) : List String → Option (List JSON)
  | [] => none
  | k :: ks =>
      match lookupField fields k with
      | some (JSON.arr xs) => some xs
      | _ => firstListValue fields ks

/-- Whether a lookup result is a present list value. -/
def isListValue : Option JSON → Bool
  | some (JSON.arr _) => true
  | _ => false

/-- Independent statement of the shapes the fetch accepts, written as a
predicate for the specification comparison: a dict holding at least one
recognised key with a list value, or a bare list. -/
def hasRecognizedShape (data : JSON) : Bool :=
  match data with
  | JSON.obj fields => envelopeKeys.any (fun k => isListValue (lookupField fields k))
  | JSON.arr _ => true
  | _ => false

/-- Envelope detection of lines 181-196: locate the list of records
inside the response JSON or fail as the source does with KeyError. -/
def locateRecords (data : JSON) : Except FetchErr (List JSON) :=
  match data with
  | JSON.obj fields =>
      match firstListValue fields envelopeKeys with
      | some records => Except.ok records
      | none => Except.error FetchErr.shape
  | JSON.arr xs => Except.ok xs
  | _ => Except.error FetchErr.shape

/-- Operator code of one record, line 201 of the source:
rec.get applied to operadora with, as default, rec.get applied to
operador with, as default, rec.get applied to codigo_operadora.
Python's dict.get falls back to its default only when the KEY is
absent; a key present with null yields null here, exactly as the JSON
null decodes to the same Python None that a missing key defaults to. -/
def resolveCode (fields : List (String × JSON)) : JSON :=
  match lookupField fields "operadora" with
  | some v => v
  | none =>
      match lookupField fields "operador" with
      | some v => v
      | none =>
          match lookupField fields "codigo_operadora" with
          | some v => v
          | none => JSON.null

/-- One iteration of the record loop, lines 199-206.  A non-dict record
raises AttributeError at rec.get, uncaught.  Inside a dict record, in
source order: the value field is read with rec indexing (KeyError when
absent, caught: skip); then, when the resolved code is truthy, float()
is applied to the value (ValueError/TypeError when not coercible,
caught: skip) and the result is stored under the stripped str() form
of the code; a falsy code performs no assignment at all. -/
def processRecord (field : String) (acc : List (String × ℚ)) :
    JSON → Except FetchErr (List (String × ℚ))
  | JSON.obj fields =>
      match lookupField fields field with
      | none => Except.ok acc
      | some v =>
          if pyTruthy (resolveCode fields) then
            match pyFloat v with
            | none => Except.ok acc
            | some x => Except.ok (dictSet acc (pyStrip (pyStr (resolveCode fields))) x)
          else Except.ok acc
  | _ => Except.error FetchErr.attr

/-- The record loop of lines 198-207 as a fold over the located list,
threading the result dict; an uncaught exception aborts the fold. -/
def fetchRecordList (field : String) (acc : List (String × ℚ)) :
    List JSON → Except FetchErr (List (String × ℚ))
  | [] => Except.ok acc
  | rec :: rest =>
      match processRecord field acc rec with
      | Except.ok acc₂ => fetchRecordList field acc₂ rest
      | Except.error e => Except.error e

/-- fetch_returns_for_horizon, lines 179-207, from the parsed JSON body
on: locate the record list, then build the code-to-return dict.  The
network call itself (lines 175-177) is external; its HTTPError is the
FetchErr.transport case fed into run_pipeline. -/
def fetch_returns_for_horizon (field : String) (data : JSON) :
    Except FetchErr (List (String × ℚ)) :=
  match locateRecords data with
  | Except.ok records => fetchRecordList field [] records
  | Except.error e => Except.error e

/-- ReturnData, lines 128-135 of the source: one operator with its
three per-horizon returns, None modelled as Option.none. -/
structure ReturnData : Type where
  operator : String
  short : Option ℚ
  medium : Option ℚ
  long : Option ℚ
deriving DecidableEq, Repr

/-- Aggregation loop of collect_returns, lines 225-234: one ReturnData
per directory entry, in directory order, each horizon field looked up
by the operator's code in that horizon's fetched dict.  The three
fetches that produce the dicts (lines 219-223) are factored out as
parameters, matching the aggregate contract of the specification; the
directory is the OPERATORS dict, whose iteration order is its insertion
order, hence a list of name/code pairs. -/
def collect_returns (operators : List (String × String))
    (short_data medium_data long_data : List (String × ℚ)) : List ReturnData :=
  operators.foldl
    (fun results nc =>
      results ++ [⟨nc.1, dictGet short_data nc.2, dictGet medium_data nc.2,
        dictGet long_data nc.2⟩])
    []

/-- Ranking comparison used by create_ranking on its sort key, the long
term column: descending on present values, and an absent value sorts
after every present one, the na_position last policy of line 252. -/
def keyLE (x y : Option ℚ) : Bool :=
  match x, y with
  | some a, some b => decide (b ≤ a)
  | some _, none => true
  | none, some _ => false
  | none, none => true

/-- The key comparison is total. -/
lemma keyLE_total (x y : Option ℚ) : keyLE x y = true ∨ keyLE y x = true := by
  unfold keyLE
  rcases x with _ | a <;> rcases y with _ | b <;> simp
  exact le_total b a

/-- The key comparison is transitive. -/
lemma keyLE_trans (x y z : Option ℚ) (hxy : keyLE x y = true)
    (hyz : keyLE y z = true) : keyLE x z = true := by
  unfold keyLE at *
  rcases x with _ | a <;> rcases y with _ | b <;> rcases z with _ | c <;> simp_all
  exact le_trans hyz hxy

/-- Row comparison of the ranking: keyLE on the long field. -/
def rankLE (a b : ReturnData) : Prop := keyLE a.long b.long = true

instance : DecidableRel rankLE := fun a b => by
  unfold rankLE; infer_instance

instance : IsTotal ReturnData rankLE :=
  ⟨fun a b => keyLE_total a.long b.long⟩

instance : IsTrans ReturnData rankLE :=
  ⟨fun a b c hab hbc => keyLE_trans a.long b.long c.long hab hbc⟩

/-- create_ranking, lines 251-253: sort the records by the long-term
return, descending, absent values last.  The source delegates to pandas
sort_values on the Long term column with ascending false and
na_position last; the order of rows with equal keys is whatever the
default quicksort kind of sort_values leaves, so this embedding fixes
it with a stable comparison sort realising the same documented
descending, absent-last order.  Claims settled through this definition
are independent of the order of tied rows unless noted otherwise. -/
def create_ranking (returns : List ReturnData) : List ReturnData :=
  List.insertionSort rankLE returns

/-- Orchestration of collect_returns (lines 219-234) and main (lines
265-277): the three horizon fetches run in sequence, any raised
TransportError or ShapeError propagates and main returns a failure
report without ranking anything; only when all three succeed are the
results aggregated and ranked.  The three Except arguments are the
outcomes of the three network fetches; the sleep between calls has no
observable effect on the data and is not modelled. -/
def run_pipeline (operators : List (String × String))
    (r₁ r₂ r₃ : Except FetchErr (List (String × ℚ))) :
    Except FetchErr (List ReturnData) :=
  match r₁ with
  | Except.error e => Except.error e
  | Except.ok short_data =>
      match r₂ with
      | Except.error e => Except.error e
      | Except.ok medium_data =>
          match r₃ with
          | Except.error e => Except.error e
          | Except.ok long_data =>
              Except.ok (create_ranking
                (collect_returns operators short_data medium_data long_data))

/-! Helper lemmas about the embedded operations. -/

/-- Appending through a left fold is a map. -/
lemma foldl_append_eq_map {α β : Type} (g : α → β) :
    ∀ (l : List α) (init : List β),
      l.foldl (fun results x => results ++ [g x]) init = init ++ l.map g
  | [], init => by simp
  | x :: xs, init => by
      simp only [List.foldl, List.map]
      rw [foldl_append_eq_map g xs]
      simp

/-- The aggregation loop is a map over the directory. -/
lemma collect_returns_eq_map (D : List (String × String))
    (s m l : List (String × ℚ)) :
    collect_returns D s m l =
      D.map (fun nc => ⟨nc.1, dictGet s nc.2, dictGet m nc.2, dictGet l nc.2⟩) := by
  unfold collect_returns
  rw [foldl_append_eq_map]
  simp

/-- Auxiliary: replacing the entry of a present key, the key reads back
as the new value. -/
lemma find?_map_replace (k : String) (v : ℚ) :
    ∀ d : List (String × ℚ), d.any (fun p => p.1 = k) = true →
      (d.map (fun p => if p.1 = k then (k, v) else p)).find?
        (fun p => p.1 = k) = some (k, v)
  | [], h => by simp at h
  | p :: d, h => by
      by_cases hp : p.1 = k
      · simp [List.find?, hp]
      · simp only [List.any_cons, hp, Bool.false_or, decide_eq_true_eq] at h
        simp only [List.map, hp, if_false]
        rw [List.find?_cons_of_neg _ (by simpa using hp)]
        exact find?_map_replace k v d (by simpa using h)

/-- Overwriting assignment: reading back the just-written key. -/
lemma dictGet_dictSet_self (d : List (String × ℚ)) (k : String) (v : ℚ) :
    dictGet (dictSet d k v) k = some v := by
  unfold dictSet dictGet
  by_cases h : d.any (fun p => p.1 = k) = true
  · rw [if_pos h, find?_map_replace k v d h]; rfl
  · rw [if_neg h, List.find?_append]
    have hnone : d.find? (fun p => p.1 = k) = none := by
      rw [List.find?_eq_none]
      intro p hp hpk
      exact h (List.any_of_mem hp hpk)
    simp [hnone, List.find?]

/-- Every entry of the dict after an assignment either carries the
assigned key or was already present. -/
lemma mem_dictSet (d : List (String × ℚ)) (k : String) (v : ℚ)
    (kv : String × ℚ) (h : kv ∈ dictSet d k v) : kv.1 = k ∨ kv ∈ d := by
  unfold dictSet at h
  by_cases hc : d.any (fun p => p.1 = k) = true
  · rw [if_pos hc] at h
    rw [List.mem_map] at h
    obtain ⟨p, hp, hpe⟩ := h
    by_cases hpk : p.1 = k
    · left; simp only [hpk, if_true] at hpe; rw [← hpe]
    · right; simp only [hpk, if_false] at hpe; rw [← hpe]; exact hp
  · rw [if_neg hc] at h
    rw [List.mem_append, List.mem_singleton] at h
    rcases h with h | h
    · right; exact h
    · left; rw [h]

/-- A key is absent from the dict exactly when no entry carries it. -/
lemma dictGet_eq_none_iff (d : List (String × ℚ)) (k : String) :
    dictGet d k = none ↔ ∀ p ∈ d, p.1 ≠ k := by
  unfold dictGet
  rw [Option.map_eq_none', List.find?_eq_none]
  constructor
  · intro h p hp; have := h p hp; simpa using this
  · intro h p hp; simpa using h p hp

/-- find? returns the unique element satisfying the predicate. -/
lemma find?_eq_some_of_unique {α : Type} (p : α → Bool) (r₀ : α) :
    ∀ l : List α, r₀ ∈ l → p r₀ = true → (∀ r ∈ l, p r = true → r = r₀) →
      l.find? p = some r₀
  | [], hmem, _, _ => by simp at hmem
  | a :: l, hmem, hp, huniq => by
      by_cases ha : p a = true
      · rw [List.find?_cons_of_pos l ha]
        rw [huniq a (List.mem_cons_self a l) ha]
      · rw [List.find?_cons_of_neg l ha]
        rcases List.mem_cons.mp hmem with he | hm
        · rw [← he] at ha; exact absurd hp ha
        · exact find?_eq_some_of_unique p r₀ l hm hp
            (fun r hr hpr => huniq r (List.mem_cons_of_mem a hr) hpr)

/-- Unfolding equation of the record step on a dict record. -/
lemma processRecord_obj (field : String) (acc : List (String × ℚ))
    (fields : List (String × JSON)) :
    processRecord field acc (JSON.obj fields) =
      match lookupField fields field with
      | none => Except.ok acc
      | some v =>
          if pyTruthy (resolveCode fields) then
            match pyFloat v with
            | none => Except.ok acc
            | some x => Except.ok (dictSet acc (pyStrip (pyStr (resolveCode fields))) x)
          else Except.ok acc := rfl

/-- A record whose resolved code is falsy performs no assignment. -/
lemma processRecord_skip_of_falsy (field : String) (acc : List (String × ℚ))
    (fields : List (String × JSON))
    (h : pyTruthy (resolveCode fields) = false) :
    processRecord field acc (JSON.obj fields) = Except.ok acc := by
  rw [processRecord_obj]
  cases hv : lookupField fields field with
  | none => rfl
  | some v => simp [h]

/-- A record without the horizon's value field is skipped. -/
lemma processRecord_skip_of_no_value (field : String) (acc : List (String × ℚ))
    (fields : List (String × JSON))
    (h : lookupField fields field = none) :
    processRecord field acc (JSON.obj fields) = Except.ok acc := by
  rw [processRecord_obj, h]

/-- A record whose value fails numeric coercion is skipped. -/
lemma processRecord_skip_of_bad_value (field : String) (acc : List (String × ℚ))
    (fields : List (String × JSON)) (v : JSON)
    (hv : lookupField fields field = some v) (h : pyFloat v = none) :
    processRecord field acc (JSON.obj fields) = Except.ok acc := by
  rw [processRecord_obj, hv]
  by_cases ht : pyTruthy (resolveCode fields) = true
  · simp [ht, h]
  · simp [ht]

/-- A record with a truthy code and a coercible value stores the value
under the trimmed string form of the code. -/
lemma processRecord_store (field : String) (acc : List (String × ℚ))
    (fields : List (String × JSON)) (v : JSON) (x : ℚ)
    (ht : pyTruthy (resolveCode fields) = true)
    (hv : lookupField fields field = some v) (hx : pyFloat v = some x) :
    processRecord field acc (JSON.obj fields) =
      Except.ok (dictSet acc (pyStrip (pyStr (resolveCode fields))) x) := by
  rw [processRecord_obj, hv]
  simp [ht, hx]

/-- The only uncaught exception of the record loop body is the
AttributeError of a non-dict record. -/
lemma processRecord_error (field : String) (acc : List (String × ℚ))
    (rec : JSON) (e : FetchErr)
    (h : processRecord field acc rec = Except.error e) : e = FetchErr.attr := by
  cases rec with
  | obj fields =>
      rw [processRecord_obj] at h
      cases hv : lookupField fields field with
      | none => rw [hv] at h; exact absurd h (by simp)
      | some v =>
          rw [hv] at h
          by_cases ht : pyTruthy (resolveCode fields) = true
          · simp only [ht, if_true] at h
            cases hx : pyFloat v with
            | none => rw [hx] at h; exact absurd h (by simp)
            | some x => rw [hx] at h; exact absurd h (by simp)
          · simp only [ht, if_false] at h; exact absurd h (by simp)
  | null => injection h with h2; exact h2.symm
  | bool b => injection h with h2; exact h2.symm
  | num q => injection h with h2; exact h2.symm
  | str s => injection h with h2; exact h2.symm
  | arr xs => injection h with h2; exact h2.symm

/-- The record loop over concatenated lists runs the first part first
and threads its dict into the second. -/
lemma fetchRecordList_append (field : String) :
    ∀ (l₁ l₂ : List JSON) (acc : List (String × ℚ)),
      fetchRecordList field acc (l₁ ++ l₂) =
        match fetchRecordList field acc l₁ with
        | Except.ok acc₂ => fetchRecordList field acc₂ l₂
        | Except.error e => Except.error e
  | [], l₂, acc => by simp [fetchRecordList]
  | rec :: rest, l₂, acc => by
      simp only [List.cons_append, fetchRecordList]
      cases processRecord field acc rec with
      | ok acc₂ => exact fetchRecordList_append field rest l₂ acc₂
      | error e => rfl

/-- The record loop fails only with the uncaught AttributeError. -/
lemma fetchRecordList_error (field : String) :
    ∀ (recs : List JSON) (acc : List (String × ℚ)) (e : FetchErr),
      fetchRecordList field acc recs = Except.error e → e = FetchErr.attr
  | [], acc, e, h => by simp [fetchRecordList] at h
  | rec :: rest, acc, e, h => by
      rw [fetchRecordList] at h
      cases hp : processRecord field acc rec with
      | ok acc₂ => rw [hp] at h; exact fetchRecordList_error field rest acc₂ e h
      | error e₂ =>
          rw [hp] at h
          injection h with h2
          rw [← h2]
          exact processRecord_error field acc rec e₂ hp

/-- A record that every dict state skips can be removed from the loop
without changing its result. -/
lemma fetchRecordList_skip (field : String) (r : JSON)
    (hskip : ∀ a : List (String × ℚ), processRecord field a r = Except.ok a) :
    ∀ (pre post : List JSON) (acc : List (String × ℚ)),
      fetchRecordList field acc (pre ++ r :: post) =
        fetchRecordList field acc (pre ++ post)
  | [], post, acc => by
      simp only [List.nil_append, fetchRecordList, hskip acc]
  | q :: pre, post, acc => by
      simp only [List.cons_append, fetchRecordList]
      cases processRecord field acc q with
      | ok acc₂ => exact fetchRecordList_skip field r hskip pre post acc₂
      | error e => rfl

/-- The priority scan returns nothing exactly when no probed key holds
a list value. -/
lemma firstListValue_eq_none_iff (fields : List (String × JSON)) :
    ∀ ks : List String,
      firstListValue fields ks = none ↔
        ∀ k ∈ ks, isListValue (lookupField fields k) = false
  | [] => by simp [firstListValue]
  | k :: ks => by
      rw [firstListValue]
      cases hv : lookupField fields k with
      | none =>
          rw [firstListValue_eq_none_iff fields ks]
          constructor
          · intro h k₂ hk₂
            rcases List.mem_cons.mp hk₂ with he | hm
            · rw [he, hv]; rfl
            · exact h k₂ hm
          · intro h k₂ hk₂; exact h k₂ (List.mem_cons_of_mem k hk₂)
      | some v =>
          cases v with
          | arr xs =>
              constructor
              · intro h; exact absurd h (by simp)
              · intro h
                have := h k (List.mem_cons_self k ks)
                rw [hv] at this
                exact absurd this (by simp [isListValue])
          | null =>
              rw [firstListValue_eq_none_iff fields ks]
              constructor
              · intro h k₂ hk₂
                rcases List.mem_cons.mp hk₂ with he | hm
                · rw [he, hv]; rfl
                · exact h k₂ hm
              · intro h k₂ hk₂; exact h k₂ (List.mem_cons_of_mem k hk₂)
          | bool b =>
              rw [firstListValue_eq_none_iff fields ks]
              constructor
              · intro h k₂ hk₂
                rcases List.mem_cons.mp hk₂ with he | hm
                · rw [he, hv]; rfl
                · exact h k₂ hm
              · intro h k₂ hk₂; exact h k₂ (List.mem_cons_of_mem k hk₂)
          | num q =>
              rw [firstListValue_eq_none_iff fields ks]
              constructor
              · intro h k₂ hk₂
                rcases List.mem_cons.mp hk₂ with he | hm
                · rw [he, hv]; rfl
                · exact h k₂ hm
              · intro h k₂ hk₂; exact h k₂ (List.mem_cons_of_mem k hk₂)
          | str s =>
              rw [firstListValue_eq_none_iff fields ks]
              constructor
              · intro h k₂ hk₂
                rcases List.mem_cons.mp hk₂ with he | hm
                · rw [he, hv]; rfl
                · exact h k₂ hm
              · intro h k₂ hk₂; exact h k₂ (List.mem_cons_of_mem k hk₂)
          | obj fs =>
              rw [firstListValue_eq_none_iff fields ks]
              constructor
              · intro h k₂ hk₂
                rcases List.mem_cons.mp hk₂ with he | hm
                · rw [he, hv]; rfl
                · exact h k₂ hm
              · intro h k₂ hk₂; exact h k₂ (List.mem_cons_of_mem k hk₂)

/-- Envelope detection fails only with the shape error. -/
lemma locateRecords_error_shape (data : JSON) (e : FetchErr)
    (h : locateRecords data = Except.error e) : e = FetchErr.shape := by
  cases data with
  | obj fields =>
      rw [locateRecords] at h
      cases hf : firstListValue fields envelopeKeys with
      | some recs => rw [hf] at h; exact absurd h (by simp)
      | none => rw [hf] at h; injection h with h2; exact h2.symm
  | arr xs => exact absurd h (by simp [locateRecords])
  | null => injection h with h2; exact h2.symm
  | bool b => injection h with h2; exact h2.symm
  | num q => injection h with h2; exact h2.symm
  | str s => injection h with h2; exact h2.symm

/-- Envelope detection fails exactly on unrecognised shapes. -/
lemma locateRecords_shape_iff (data : JSON) :
    locateRecords data = Except.error FetchErr.shape ↔
      hasRecognizedShape data = false := by
  cases data with
  | obj fields =>
      rw [locateRecords, hasRecognizedShape]
      cases hf : firstListValue fields envelopeKeys with
      | some recs =>
          simp only [hf]
          constructor
          · intro h; exact absurd h (by simp)
          · intro h
            rw [List.any_eq_false] at h
            have : firstListValue fields envelopeKeys = none := by
              rw [firstListValue_eq_none_iff]
              intro k hk
              have := h k hk
              simpa using this
            rw [hf] at this
            exact absurd this (by simp)
      | none =>
          simp only [hf]
          constructor
          · intro _
            rw [List.any_eq_false]
            intro k hk
            have := (firstListValue_eq_none_iff fields envelopeKeys).mp hf k hk
            simp [this]
          · intro _; trivial
  | arr xs => simp [locateRecords, hasRecognizedShape]
  | null => simp [locateRecords, hasRecognizedShape]
  | bool b => simp [locateRecords, hasRecognizedShape]
  | num q => simp [locateRecords, hasRecognizedShape]
  | str s => simp [locateRecords, hasRecognizedShape]

/-- The fetch reports the shape error exactly on unrecognised shapes. -/
lemma fetch_shape_iff (field : String) (data : JSON) :
    fetch_returns_for_horizon field data = Except.error FetchErr.shape ↔
      hasRecognizedShape data = false := by
  rw [fetch_returns_for_horizon]
  cases hl : locateRecords data with
  | ok recs =>
      constructor
      · intro h
        have := fetchRecordList_error field recs [] FetchErr.shape h
        exact absurd this (by simp)
      · intro h
        have := (locateRecords_shape_iff data).mpr h
        rw [hl] at this
        exact absurd this (by simp)
  | error e =>
      have he := locateRecords_error_shape data e hl
      rw [he] at hl
      rw [he]
      simp only [Except.error.injEq]
      constructor
      · intro _; exact (locateRecords_shape_iff data).mp hl
      · intro _; trivial

/-- A probed key without a list value is passed over by the scan. -/
lemma firstListValue_step (fields : List (String × JSON)) (k : String)
    (ks : List String) (h : isListValue (lookupField fields k) = false) :
    firstListValue fields (k :: ks) = firstListValue fields ks := by
  rw [firstListValue]
  cases hv : lookupField fields k with
  | none => rfl
  | some v =>
      cases v with
      | arr xs => rw [hv] at h; exact absurd h (by simp [isListValue])
      | null => rfl
      | bool b => rfl
      | num q => rfl
      | str s => rfl
      | obj fs => rfl

/-- Every entry of the dict after one loop step was already there or
carries the stripped string form of the step's record code. -/
lemma processRecord_ok_mem (field : String) (acc acc₂ : List (String × ℚ))
    (rec : JSON) (kv : String × ℚ)
    (h : processRecord field acc rec = Except.ok acc₂) (hkv : kv ∈ acc₂) :
    kv ∈ acc ∨ ∃ fields, rec = JSON.obj fields ∧
      kv.1 = pyStrip (pyStr (resolveCode fields)) := by
  cases rec with
  | obj fields =>
      rw [processRecord_obj] at h
      cases hv : lookupField fields field with
      | none =>
          rw [hv] at h; injection h with h₂; rw [← h₂] at hkv; exact Or.inl hkv
      | some v =>
          rw [hv] at h
          by_cases ht : pyTruthy (resolveCode fields) = true
          · simp only [ht, if_true] at h
            cases hx : pyFloat v with
            | none =>
                rw [hx] at h; injection h with h₂; rw [← h₂] at hkv
                exact Or.inl hkv
            | some x =>
                rw [hx] at h
                injection h with h₂
                rw [← h₂] at hkv
                rcases mem_dictSet acc _ x kv hkv with hk | hk
                · exact Or.inr ⟨fields, rfl, hk⟩
                · exact Or.inl hk
          · simp only [ht, if_false] at h; injection h with h₂; rw [← h₂] at hkv
            exact Or.inl hkv
  | null => simp [processRecord] at h
  | bool b => simp [processRecord] at h
  | num q => simp [processRecord] at h
  | str s => simp [processRecord] at h
  | arr xs => simp [processRecord] at h

/-- Every entry of the result dict was in the initial dict or carries
the stripped string form of the code of some record of the list. -/
lemma fetchRecordList_key_provenance (field : String) :
    ∀ (recs : List JSON) (acc m : List (String × ℚ)),
      fetchRecordList field acc recs = Except.ok m →
      ∀ kv ∈ m, kv ∈ acc ∨ ∃ fields, JSON.obj fields ∈ recs ∧
        kv.1 = pyStrip (pyStr (resolveCode fields))
  | [], acc, m, h, kv, hkv => by
      rw [fetchRecordList] at h; injection h with h₂; rw [← h₂] at hkv
      exact Or.inl hkv
  | rec :: rest, acc, m, h, kv, hkv => by
      rw [fetchRecordList] at h
      cases hp : processRecord field acc rec with
      | error e => rw [hp] at h; exact absurd h (by simp)
      | ok acc₂ =>
          rw [hp] at h
          rcases fetchRecordList_key_provenance field rest acc₂ m h kv hkv with
            hin | ⟨fields, hf, hk⟩
          · rcases processRecord_ok_mem field acc acc₂ rec kv hp hin with
              hin₂ | ⟨fields, hf, hk⟩
            · exact Or.inl hin₂
            · refine Or.inr ⟨fields, ?_, hk⟩
              rw [hf] at hp ⊢
              exact List.mem_cons_self _ _
          · exact Or.inr ⟨fields, List.mem_cons_of_mem rec hf, hk⟩

/-! Claim theorems. -/

/-- C1: create_ranking returns exactly the input records, reordered
into a total order descending on the long-horizon value in which every
record with an absent long value sits strictly after every record with
a present one: the output is a permutation of the input sorted under
rankLE, and keyLE makes an absent key never precede a present one
(keyLE of none before some is false) while comparing present keys
descending.  On the directory X to C1 and Y to C2 with short map C1 to
8.5, empty medium map and long map C1 to 7, C2 to 9, the ranked output
is exactly Y (absent, absent, 9) followed by X (8.5, absent, 7). -/
theorem claim_c1_ranking_descending_nulls_last :
    (∀ rs : List ReturnData,
        (create_ranking rs).Perm rs ∧ List.Sorted rankLE (create_ranking rs)) ∧
      create_ranking (collect_returns [("X", "C1"), ("Y", "C2")]
          [("C1", (17 : ℚ) / 2)] [] [("C1", 7), ("C2", 9)]) =
        [⟨"Y", none, none, some 9⟩, ⟨"X", some ((17 : ℚ) / 2), none, some 7⟩] := by
  constructor
  · intro rs
    exact ⟨List.perm_insertionSort rankLE rs, List.sorted_insertionSort rankLE rs⟩
  · have h1 : collect_returns [("X", "C1"), ("Y", "C2")]
        [("C1", (17 : ℚ) / 2)] [] [("C1", 7), ("C2", 9)] =
        [⟨"X", some ((17 : ℚ) / 2), none, some 7⟩, ⟨"Y", none, none, some 9⟩] := by
      rw [collect_returns_eq_map]
      simp [dictGet, List.find?]
    rw [h1]
    simp only [create_ranking, List.insertionSort, List.orderedInsert]
    norm_num [rankLE, keyLE]

/-- C4: the aggregation produces one record per directory entry, in
directory order, with each horizon field the lookup of the operator's
code in that horizon's map; a field is absent exactly when the code is
not a key of that map, the record count always equals the directory's
size, and, the output being a map over the directory, codes present in
a horizon map without a directory entry never generate a row; with all
three maps empty every field of every record is absent. -/
theorem claim_c4_aggregation_shape :
    (∀ (D : List (String × String)) (s m l : List (String × ℚ)),
        collect_returns D s m l =
          D.map (fun nc => ⟨nc.1, dictGet s nc.2, dictGet m nc.2, dictGet l nc.2⟩)) ∧
      (∀ (D : List (String × String)) (s m l : List (String × ℚ)),
        (collect_returns D s m l).length = D.length) ∧
      (∀ (mp : List (String × ℚ)) (code : String),
        dictGet mp code = none ↔ ∀ p ∈ mp, p.1 ≠ code) ∧
      (∀ D : List (String × String),
        collect_returns D [] [] [] =
          D.map (fun nc => ⟨nc.1, none, none, none⟩)) := by
  refine ⟨collect_returns_eq_map, fun D s m l => ?_, dictGet_eq_none_iff, fun D => ?_⟩
  · rw [collect_returns_eq_map]; simp
  · rw [collect_returns_eq_map]; simp [dictGet]

/-- Witness for C4 at a concrete map and code: a code that is not a
key of the horizon map reads back as absent. -/
theorem claim_c4_aggregation_shape_witness :
    dictGet [("BNV", (7 : ℚ))] "POP" = none :=
  (claim_c4_aggregation_shape.2.2.1 [("BNV", (7 : ℚ))] "POP").mpr (by decide)

/-- C8: a failing horizon fetch aborts the whole run: whenever any of
the three fetch outcomes is an error the pipeline yields an error and
no ranked list at all, and when all three succeed the caller receives
the complete ranking of the full aggregation, so the observable result
is always either a complete ranking or a failure report. -/
theorem claim_c8_abort_on_fetch_error :
    (∀ (ops : List (String × String))
        (r₁ r₂ r₃ : Except FetchErr (List (String × ℚ))) (e : FetchErr),
        (r₁ = Except.error e ∨ r₂ = Except.error e ∨ r₃ = Except.error e) →
        ∃ e₂, run_pipeline ops r₁ r₂ r₃ = Except.error e₂) ∧
      (∀ (ops : List (String × String)) (s m l : List (String × ℚ)),
        run_pipeline ops (Except.ok s) (Except.ok m) (Except.ok l) =
          Except.ok (create_ranking (collect_returns ops s m l))) := by
  constructor
  · intro ops r₁ r₂ r₃ e h
    cases r₁ with
    | error e₁ => exact ⟨e₁, rfl⟩
    | ok s =>
        cases r₂ with
        | error e₂ => exact ⟨e₂, rfl⟩
        | ok m =>
            cases r₃ with
            | error e₃ => exact ⟨e₃, rfl⟩
            | ok l => rcases h with h | h | h <;> exact absurd h (by simp)
  · intro ops s m l; rfl

/-- Witness for C8: a transport failure of the medium-horizon fetch
makes the pipeline yield an error, not a ranking. -/
theorem claim_c8_abort_on_fetch_error_witness :
    ∃ e₂, run_pipeline [("BN Vital", "BNV")] (Except.ok [])
        (Except.error FetchErr.transport) (Except.ok []) = Except.error e₂ :=
  claim_c8_abort_on_fetch_error.1 [("BN Vital", "BNV")] (Except.ok [])
    (Except.error FetchErr.transport) (Except.ok []) FetchErr.transport
    (Or.inr (Or.inl rfl))

/-- C10: a record whose resolved operator code is falsy, in particular
null after the field fallback or an empty string, is silently skipped
even when its value field is present and numerically coercible: the
loop state is unchanged, the record can be removed from the record
list without changing the fetch result, and the concrete record with
an empty-string code and value 4 yields an empty result dict, so no
entry of the returned map ever derives from such a record. -/
theorem claim_c10_falsy_code_skipped :
    (∀ (field : String) (acc : List (String × ℚ)) (fields : List (String × JSON)),
        pyTruthy (resolveCode fields) = false →
        processRecord field acc (JSON.obj fields) = Except.ok acc) ∧
      (∀ (field : String) (pre post : List JSON) (fields : List (String × JSON))
          (acc : List (String × ℚ)),
        pyTruthy (resolveCode fields) = false →
        fetchRecordList field acc (pre ++ JSON.obj fields :: post) =
          fetchRecordList field acc (pre ++ post)) ∧
      pyTruthy (JSON.str "") = false ∧ pyTruthy JSON.null = false ∧
      fetch_returns_for_horizon "rendimiento"
          (JSON.arr [JSON.obj [("operadora", JSON.str ""),
            ("rendimiento", JSON.num 4)]]) = Except.ok [] := by
  refine ⟨processRecord_skip_of_falsy, ?_, rfl, rfl, rfl⟩
  intro field pre post fields acc h
  exact fetchRecordList_skip field (JSON.obj fields)
    (fun a => processRecord_skip_of_falsy field a fields h) pre post acc

/-- Witness for C10: the concrete empty-string-code record is skipped
with the loop state unchanged. -/
theorem claim_c10_falsy_code_skipped_witness :
    processRecord "rendimiento" [] (JSON.obj [("operadora", JSON.str ""),
        ("rendimiento", JSON.num 4)]) = Except.ok [] :=
  claim_c10_falsy_code_skipped.1 "rendimiento" []
    [("operadora", JSON.str ""), ("rendimiento", JSON.num 4)] rfl

/-- C3: the fetch fails with the shape error exactly when the response
JSON is neither a dict with at least one list-valued key among datos,
data, records, result nor a bare list; when it is such a dict the
record list used is the value of the first key of that priority order
holding a list; and the concrete body with only the key foo fails with
the shape error. -/
theorem claim_c3_shape_error_exactly :
    (∀ (field : String) (data : JSON),
        fetch_returns_for_horizon field data = Except.error FetchErr.shape ↔
          hasRecognizedShape data = false) ∧
      (∀ (fields : List (String × JSON)) (xs : List JSON),
        lookupField fields "datos" = some (JSON.arr xs) →
          locateRecords (JSON.obj fields) = Except.ok xs) ∧
      (∀ (fields : List (String × JSON)) (xs : List JSON),
        isListValue (lookupField fields "datos") = false →
          lookupField fields "data" = some (JSON.arr xs) →
          locateRecords (JSON.obj fields) = Except.ok xs) ∧
      (∀ (fields : List (String × JSON)) (xs : List JSON),
        isListValue (lookupField fields "datos") = false →
          isListValue (lookupField fields "data") = false →
          lookupField fields "records" = some (JSON.arr xs) →
          locateRecords (JSON.obj fields) = Except.ok xs) ∧
      (∀ (fields : List (String × JSON)) (xs : List JSON),
        isListValue (lookupField fields "datos") = false →
          isListValue (lookupField fields "data") = false →
          isListValue (lookupField fields "records") = false →
          lookupField fields "result" = some (JSON.arr xs) →
          locateRecords (JSON.obj fields) = Except.ok xs) ∧
      fetch_returns_for_horizon "rendimiento"
          (JSON.obj [("foo", JSON.arr [JSON.num 1, JSON.num 2, JSON.num 3])]) =
        Except.error FetchErr.shape := by
  refine ⟨fetch_shape_iff, ?_, ?_, ?_, ?_, rfl⟩
  · intro fields xs h
    have hf : firstListValue fields envelopeKeys = some xs := by
      rw [envelopeKeys]
      simp only [firstListValue, h]
    simp only [locateRecords, hf]
  · intro fields xs h₁ h₂
    have hf : firstListValue fields envelopeKeys = some xs := by
      rw [envelopeKeys, firstListValue_step fields "datos" _ h₁]
      simp only [firstListValue, h₂]
    simp only [locateRecords, hf]
  · intro fields xs h₁ h₂ h₃
    have hf : firstListValue fields envelopeKeys = some xs := by
      rw [envelopeKeys, firstListValue_step fields "datos" _ h₁,
        firstListValue_step fields "data" _ h₂]
      simp only [firstListValue, h₃]
    simp only [locateRecords, hf]
  · intro fields xs h₁ h₂ h₃ h₄
    have hf : firstListValue fields envelopeKeys = some xs := by
      rw [envelopeKeys, firstListValue_step fields "datos" _ h₁,
        firstListValue_step fields "data" _ h₂,
        firstListValue_step fields "records" _ h₃]
      simp only [firstListValue, h₄]
    simp only [locateRecords, hf]

/-- Witness for C3: a dict whose key data holds a list while datos is
a non-list value locates the list under data. -/
theorem claim_c3_shape_error_exactly_witness :
    locateRecords (JSON.obj [("datos", JSON.num 1),
        ("data", JSON.arr [JSON.null])]) = Except.ok [JSON.null] :=
  claim_c3_shape_error_exactly.2.2.1
    [("datos", JSON.num 1), ("data", JSON.arr [JSON.null])] [JSON.null] rfl rfl

/-- C5: inside a recognised envelope, a dict record with no usable
operator-code field (the fallback resolves to null), with the horizon's
value field missing, or whose value fails numeric coercion is silently
skipped: the loop state is unchanged, the record can be removed from
the record list without changing the fetch result, and on the concrete
body holding the n/a record next to a valid one the fetch succeeds
with exactly the valid record. -/
theorem claim_c5_bad_record_skipped :
    (∀ (field : String) (acc : List (String × ℚ)) (fields : List (String × JSON)),
        resolveCode fields = JSON.null →
        processRecord field acc (JSON.obj fields) = Except.ok acc) ∧
      (∀ (field : String) (acc : List (String × ℚ)) (fields : List (String × JSON)),
        lookupField fields field = none →
        processRecord field acc (JSON.obj fields) = Except.ok acc) ∧
      (∀ (field : String) (acc : List (String × ℚ)) (fields : List (String × JSON))
          (v : JSON),
        lookupField fields field = some v → pyFloat v = none →
        processRecord field acc (JSON.obj fields) = Except.ok acc) ∧
      (∀ (field : String) (pre post : List JSON) (fields : List (String × JSON))
          (acc : List (String × ℚ)),
        (resolveCode fields = JSON.null ∨ lookupField fields field = none ∨
          ∃ v, lookupField fields field = some v ∧ pyFloat v = none) →
        fetchRecordList field acc (pre ++ JSON.obj fields :: post) =
          fetchRecordList field acc (pre ++ post)) ∧
      fetch_returns_for_horizon "rendimiento"
          (JSON.obj [("datos", JSON.arr
            [JSON.obj [("operador", JSON.str "C1"), ("rendimiento", JSON.str "n/a")],
             JSON.obj [("operadora", JSON.str "C2"), ("rendimiento", JSON.num 5)]])]) =
        Except.ok [("C2", 5)] := by
  refine ⟨?_, processRecord_skip_of_no_value, processRecord_skip_of_bad_value, ?_, rfl⟩
  · intro field acc fields h
    apply processRecord_skip_of_falsy
    rw [h]; rfl
  · intro field pre post fields acc h
    apply fetchRecordList_skip
    intro a
    rcases h with h | h | ⟨v, hv, hx⟩
    · apply processRecord_skip_of_falsy
      rw [h]; rfl
    · exact processRecord_skip_of_no_value field a fields h
    · exact processRecord_skip_of_bad_value field a fields v hv hx

/-- Witness for C5: the concrete n/a record is skipped with the loop
state unchanged. -/
theorem claim_c5_bad_record_skipped_witness :
    processRecord "rendimiento" [] (JSON.obj [("operador", JSON.str "C1"),
        ("rendimiento", JSON.str "n/a")]) = Except.ok [] :=
  claim_c5_bad_record_skipped.2.2.1 "rendimiento" []
    [("operador", JSON.str "C1"), ("rendimiento", JSON.str "n/a")]
    (JSON.str "n/a") rfl rfl

/-- C6 counterexample: a record whose operadora key is present holding
null while operador holds the usable code C1 and the value is 5.  The
claim asserts the record is keyed by the operador value C1; on the
code the resolved operator code is null, the record is skipped, and
the returned map is empty, holding nothing under C1. -/
theorem claim_c6_counterexample :
    resolveCode [("operadora", JSON.null), ("operador", JSON.str "C1"),
        ("rendimiento", JSON.num 5)] = JSON.null ∧
      fetch_returns_for_horizon "rendimiento"
          (JSON.arr [JSON.obj [("operadora", JSON.null),
            ("operador", JSON.str "C1"), ("rendimiento", JSON.num 5)]]) =
        Except.ok [] ∧
      dictGet [] "C1" = none :=
  ⟨rfl, rfl, rfl⟩

/-- C6 amended: the field fallback moves to the next code field only
when the earlier field's key is entirely absent from the record; the
first PRESENT key wins even when its value is null, in which case the
resolved code is null and the record is skipped rather than keyed by a
later field. -/
theorem claim_c6_amended_fallback_on_absent_key :
    (∀ (fields : List (String × JSON)) (v : JSON),
        lookupField fields "operadora" = some v → resolveCode fields = v) ∧
      (∀ (fields : List (String × JSON)) (v : JSON),
        lookupField fields "operadora" = none →
        lookupField fields "operador" = some v → resolveCode fields = v) ∧
      (∀ (fields : List (String × JSON)) (v : JSON),
        lookupField fields "operadora" = none →
        lookupField fields "operador" = none →
        lookupField fields "codigo_operadora" = some v → resolveCode fields = v) ∧
      (∀ fields : List (String × JSON),
        lookupField fields "operadora" = none →
        lookupField fields "operador" = none →
        lookupField fields "codigo_operadora" = none →
        resolveCode fields = JSON.null) ∧
      (∀ (field : String) (acc : List (String × ℚ)) (fields : List (String × JSON)),
        lookupField fields "operadora" = some JSON.null →
        processRecord field acc (JSON.obj fields) = Except.ok acc) := by
  refine ⟨?_, ?_, ?_, ?_, ?_⟩
  · intro fields v h; rw [resolveCode, h]
  · intro fields v h₁ h₂; rw [resolveCode, h₁, h₂]
  · intro fields v h₁ h₂ h₃; rw [resolveCode, h₁, h₂, h₃]
  · intro fields h₁ h₂ h₃; rw [resolveCode, h₁, h₂, h₃]
  · intro field acc fields h
    apply processRecord_skip_of_falsy
    have : resolveCode fields = JSON.null := by rw [resolveCode, h]
    rw [this]; rfl

/-- Witness for C6 amended: with operadora absent, the operador value
is the resolved code. -/
theorem claim_c6_amended_fallback_on_absent_key_witness :
    resolveCode [("operador", JSON.str "C1")] = JSON.str "C1" :=
  claim_c6_amended_fallback_on_absent_key.2.1 [("operador", JSON.str "C1")]
    (JSON.str "C1") rfl rfl

/-- C7: the result map of a fetch is keyed by the stripped string form
of record operator codes, every key of the result being the stripped
str() of some record's resolved code; a record with a truthy code and
coercible value writes through a dict assignment whose key then reads
back as that record's value, so a repeated code keeps the value of the
later record; and the concrete response with two records both coded C1
and values 8 then 9 yields the map holding 9 under C1. -/
theorem claim_c7_stripped_keys_last_write_wins :
    (∀ (d : List (String × ℚ)) (k : String) (v : ℚ),
        dictGet (dictSet d k v) k = some v) ∧
      (∀ (field : String) (acc : List (String × ℚ)) (fields : List (String × JSON))
          (v : JSON) (x : ℚ),
        pyTruthy (resolveCode fields) = true →
        lookupField fields field = some v → pyFloat v = some x →
        processRecord field acc (JSON.obj fields) =
          Except.ok (dictSet acc (pyStrip (pyStr (resolveCode fields))) x)) ∧
      (∀ (field : String) (data : JSON) (m : List (String × ℚ))
          (kv : String × ℚ),
        fetch_returns_for_horizon field data = Except.ok m → kv ∈ m →
        ∃ recs fields, locateRecords data = Except.ok recs ∧
          JSON.obj fields ∈ recs ∧
          kv.1 = pyStrip (pyStr (resolveCode fields))) ∧
      fetch_returns_for_horizon "rendimiento"
          (JSON.arr [JSON.obj [("operadora", JSON.str "C1"), ("rendimiento", JSON.num 8)],
            JSON.obj [("operadora", JSON.str "C1"), ("rendimiento", JSON.num 9)]]) =
        Except.ok [("C1", 9)] := by
  refine ⟨dictGet_dictSet_self, processRecord_store, ?_, rfl⟩
  intro field data m kv h hkv
  rw [fetch_returns_for_horizon] at h
  cases hl : locateRecords data with
  | error e => rw [hl] at h; exact absurd h (by simp)
  | ok recs =>
      rw [hl] at h
      rcases fetchRecordList_key_provenance field recs [] m h kv hkv with
        hin | ⟨fields, hf, hk⟩
      · simp at hin
      · exact ⟨recs, fields, rfl, hf, hk⟩

/-- Witness for C7: the later of two records coded C1 overwrites the
earlier value, the stored key reading back as 9. -/
theorem claim_c7_stripped_keys_last_write_wins_witness :
    processRecord "rendimiento" [("C1", (8 : ℚ))]
        (JSON.obj [("operadora", JSON.str "C1"), ("rendimiento", JSON.num 9)]) =
      Except.ok (dictSet [("C1", (8 : ℚ))] "C1" 9) :=
  claim_c7_stripped_keys_last_write_wins.2.1 "rendimiento" [("C1", (8 : ℚ))]
    [("operadora", JSON.str "C1"), ("rendimiento", JSON.num 9)]
    (JSON.num 9) 9 rfl rfl rfl

/-- C9: aggregating, ranking, and re-indexing the ranked output by
operator name recovers exactly the original per-operator field values:
for every directory with distinct names, looking the name up in the
ranked list finds precisely the record whose fields are the three map
lookups of that operator's code, since ranking is a pure permutation
of the aggregated records. -/
theorem claim_c9_round_trip (D : List (String × String))
    (s m l : List (String × ℚ)) (hD : (D.map Prod.fst).Nodup)
    (nc : String × String) (hnc : nc ∈ D) :
    (create_ranking (collect_returns D s m l)).find?
        (fun r => r.operator = nc.1) =
      some ⟨nc.1, dictGet s nc.2, dictGet m nc.2, dictGet l nc.2⟩ := by
  have hcoll := collect_returns_eq_map D s m l
  have hperm : (create_ranking (collect_returns D s m l)).Perm
      (collect_returns D s m l) := List.perm_insertionSort rankLE _
  apply find?_eq_some_of_unique
  · rw [hperm.mem_iff, hcoll]
    exact List.mem_map_of_mem
      (fun nc => (⟨nc.1, dictGet s nc.2, dictGet m nc.2, dictGet l nc.2⟩ : ReturnData))
      hnc
  · simp
  · intro r hr hpr
    rw [hperm.mem_iff, hcoll] at hr
    rcases List.mem_map.mp hr with ⟨nc₂, hnc₂, hre⟩
    have hop : r.operator = nc.1 := by simpa using hpr
    have h₁₂ : nc₂.1 = nc.1 := by rw [← hre] at hop; simpa using hop
    have he : nc₂ = nc := List.inj_on_of_nodup_map hD hnc₂ hnc h₁₂
    rw [← hre, he]

/-- Witness for C9 on Scenario A: looking X up in the ranked output
recovers the original short, medium and long lookups of code C1. -/
theorem claim_c9_round_trip_witness :
    (create_ranking (collect_returns [("X", "C1"), ("Y", "C2")]
        [("C1", (17 : ℚ) / 2)] [] [("C1", 7), ("C2", 9)])).find?
        (fun r => r.operator = "X") =
      some ⟨"X", dictGet [("C1", (17 : ℚ) / 2)] "C1", dictGet [] "C1",
        dictGet [("C1", 7), ("C2", 9)] "C1"⟩ :=
  claim_c9_round_trip [("X", "C1"), ("Y", "C2")] [("C1", (17 : ℚ) / 2)] []
    [("C1", 7), ("C2", 9)] (by decide) ("X", "C1") (by decide)
